import Mathlib

/-
Verification of the pagination, retry/backoff and merge layer of the
Spotify data exporter.  The definitions below are shallow embeddings of
the functions in src/utils/api_utils.py, src/exporters/base_exporter.py,
src/exporters/following_exporter.py and src/utils/file_utils.py.
Durations are modelled as rationals, HTTP statuses as naturals, and the
ambient clock as an explicit parameter.
-/

set_option maxHeartbeats 1000000

namespace SpotifyExport

/-- Outcome of one invocation of the remote-call thunk as observed by
retry_on_api_error in src/utils/api_utils.py: a returned value, a raised
SpotifyException carrying an http status together with the Retry-After
header state (absent, or present and either parseable as an integer or
not), or any other raised exception. -/
inductive CallResult (α : Type) where
  | success (v : α)
  | apiError (status : Nat) (retryAfter : Option (Option Int))
  | otherError
  deriving DecidableEq

/-- Terminal outcome of retry_on_api_error: the value returned by the
thunk, the SpotifyException re-raised after max_retries retryable
failures, the SpotifyException re-raised on a non-retryable status, a
re-raised non-Spotify exception, or the implicit None returned when the
while loop is never entered because max_retries is not positive. -/
inductive RetryResult (α : Type) where
  | ok (v : α)
  | exhausted (status : Nat)
  | fatalApi (status : Nat)
  | fatalOther
  | noneResult
  deriving DecidableEq

/-- Trace of one run of retry_on_api_error: the terminal outcome, the
sleep durations performed in order, and the number of thunk invocations. -/
structure RetryTrace (α : Type) where
  result : RetryResult α
  delays : List ℚ
  calls : Nat
  deriving DecidableEq

/-- Default retry_on_status list of retry_on_api_error. -/
def defaultRetryStatuses : List Nat := [429, 500, 502, 503, 504]

/-- Python int() truncation toward zero, on a rational: floor for a
nonnegative argument and ceiling for a negative one. -/
def pyIntTrunc (q : ℚ) : Int := if 0 ≤ q then ⌊q⌋ else ⌈q⌉

/-- Sleep duration chosen for one retry of retry_on_api_error: the
Retry-After header value when it is present and parseable as an integer,
the raw current delay when the header is present but unparseable, and
int(current_delay) when no header is available. -/
def delayOf (current_delay : ℚ) (hint : Option (Option Int)) : ℚ :=
  match hint with
  | some (some n) => (n : ℚ)
  | some none => current_delay
  | none => (pyIntTrunc current_delay : ℚ)

/-- While loop of retry_on_api_error.  The loop counter is rendered
structurally: remaining stands for max_retries minus attempt, so the
source condition attempt less than max_retries is remaining positive,
and the source check attempt greater or equal max_retries taken right
after the increment of attempt is remaining equal to one, rendered here
as the decremented counter hitting zero.  The thunk is indexed by the
invocation number, which at the top of the loop always equals the
attempt counter, since every iteration that does not leave the loop
increments attempt exactly once. -/
def retryGo {α : Type} (thunk : Nat → CallResult α) (retry_on_status : List Nat)
    (backoff_factor : ℚ) :
    Nat → Nat → ℚ → RetryTrace α
  | 0, attempt, _ => ⟨.noneResult, [], attempt⟩
  | remaining + 1, attempt, current_delay =>
    match thunk attempt with
    | .success v => ⟨.ok v, [], attempt + 1⟩
    | .apiError st hint =>
      if st ∈ retry_on_status then
        if remaining = 0 then ⟨.exhausted st, [], attempt + 1⟩
        else
          let t := retryGo thunk retry_on_status backoff_factor remaining
            (attempt + 1) (current_delay * backoff_factor)
          ⟨t.result, delayOf current_delay hint :: t.delays, t.calls⟩
      else ⟨.fatalApi st, [], attempt + 1⟩
    | .otherError => ⟨.fatalOther, [], attempt + 1⟩

/-- Embedding of retry_on_api_error from src/utils/api_utils.py.  The
func argument gives the outcome of each successive invocation of the
retried thunk; max_retries keeps its Python int type, and a value that
is not positive never enters the loop. -/
def retry_on_api_error {α : Type} (func : Nat → CallResult α) (max_retries : Int)
    (delay : ℚ) (backoff_factor : ℚ) (retry_on_status : List Nat) : RetryTrace α :=
  retryGo func retry_on_status backoff_factor max_retries.toNat 0 delay

/-- Is one call outcome a SpotifyException whose status is in the given
retryable list. -/
def isRetryable {α : Type} (retry_on_status : List Nat) : CallResult α → Bool
  | .apiError st _ => decide (st ∈ retry_on_status)
  | _ => false

/-- Is one call outcome an exception that retry_on_api_error never
retries: a SpotifyException with a status outside the retryable list, or
any non-Spotify exception. -/
def isFatalCall {α : Type} (retry_on_status : List Nat) : CallResult α → Bool
  | .apiError st _ => decide (st ∉ retry_on_status)
  | .otherError => true
  | .success _ => false

/-- Status carried by a call outcome, defaulting to 0 for outcomes that
carry none. -/
def statusOf {α : Type} : CallResult α → Nat
  | .apiError st _ => st
  | _ => 0

/-- Retry-After information carried by a call outcome. -/
def hintOf {α : Type} : CallResult α → Option (Option Int)
  | .apiError _ h => h
  | _ => none

/-- Exception that retry_on_api_error re-raises when a call fails and is
not retried. -/
def fatalResultOf {α : Type} : CallResult α → RetryResult α
  | .apiError st _ => .fatalApi st
  | .otherError => .fatalOther
  | .success v => .ok v

/-- Does a retry outcome represent a propagated failure. -/
def isFailureR {α : Type} : RetryResult α → Bool
  | .exhausted _ => true
  | .fatalApi _ => true
  | .fatalOther => true
  | .ok _ => false
  | .noneResult => false

example :
    retry_on_api_error (fun n => if n = 0 then .apiError 429 none else .success 7)
      3 2 2 defaultRetryStatuses = ⟨.ok 7, [2], 2⟩ := by
  norm_num [retry_on_api_error, retryGo, defaultRetryStatuses, delayOf, pyIntTrunc]

example :
    retry_on_api_error (fun n => if n = 0 then .apiError 429 none else .success 7)
      1 2 2 defaultRetryStatuses = ⟨.exhausted 429, [], 1⟩ := by
  norm_num [retry_on_api_error, retryGo, defaultRetryStatuses]

example :
    retry_on_api_error (fun _ => (.apiError 404 none : CallResult Nat))
      3 2 2 defaultRetryStatuses = ⟨.fatalApi 404, [], 1⟩ := by
  norm_num [retry_on_api_error, retryGo, defaultRetryStatuses]

example :
    retry_on_api_error (fun _ => (.success 5 : CallResult Nat))
      0 2 2 defaultRetryStatuses = ⟨.noneResult, [], 0⟩ := by
  norm_num [retry_on_api_error, retryGo]

example :
    retry_on_api_error (fun n => if n ≤ 2 then .apiError 429 none else .success 7)
      4 1 (3/2) defaultRetryStatuses = ⟨.ok 7, [1, 1, 2], 4⟩ := by
  norm_num [retry_on_api_error, retryGo, defaultRetryStatuses, delayOf, pyIntTrunc]

/-- Sleep durations performed by k consecutive retried failures starting
at the given attempt index with the given current delay. -/
def delaySeq {α : Type} (thunk : Nat → CallResult α) (bf : ℚ) (cd : ℚ)
    (attempt k : Nat) : List ℚ :=
  (List.range k).map (fun i => delayOf (cd * bf ^ i) (hintOf (thunk (attempt + i))))

theorem delaySeq_zero {α : Type} (thunk : Nat → CallResult α) (bf cd : ℚ)
    (attempt : Nat) : delaySeq thunk bf cd attempt 0 = [] := rfl

theorem delaySeq_succ {α : Type} (thunk : Nat → CallResult α) (bf cd : ℚ)
    (attempt k : Nat) :
    delaySeq thunk bf cd attempt (k + 1) =
      delayOf cd (hintOf (thunk attempt)) :: delaySeq thunk bf (cd * bf) (attempt + 1) k := by
  unfold delaySeq
  rw [List.range_succ_eq_map]
  simp only [List.map_cons, List.map_map, pow_zero, mul_one, Nat.add_zero]
  congr 1
  apply List.map_congr_left
  intro i _
  simp only [Function.comp_apply, Nat.succ_eq_add_one]
  have h1 : cd * bf ^ (i + 1) = cd * bf * bf ^ i := by ring
  have h2 : attempt + (i + 1) = attempt + 1 + i := by omega
  rw [h1, h2]

/-- Any run of the retry loop whose first k calls are retryable failures,
with k strictly below the remaining budget, and whose next call succeeds,
returns the success value after one sleep per failure. -/
theorem retryGo_ok {α : Type} (thunk : Nat → CallResult α) (rs : List Nat)
    (bf : ℚ) (v : α) :
    ∀ (k remaining attempt : Nat) (cd : ℚ),
      k < remaining →
      (∀ i, i < k → isRetryable rs (thunk (attempt + i)) = true) →
      thunk (attempt + k) = .success v →
      retryGo thunk rs bf remaining attempt cd =
        ⟨.ok v, delaySeq thunk bf cd attempt k, attempt + k + 1⟩ := by
  intro k
  induction k with
  | zero =>
    intro remaining attempt cd hk hfail hsucc
    obtain ⟨r, rfl⟩ : ∃ r, remaining = r + 1 := ⟨remaining - 1, by omega⟩
    have h0 : thunk attempt = .success v := by simpa using hsucc
    simp [retryGo, h0, delaySeq]
  | succ k ih =>
    intro remaining attempt cd hk hfail hsucc
    obtain ⟨r, rfl⟩ : ∃ r, remaining = r + 1 := ⟨remaining - 1, by omega⟩
    have h0 : isRetryable rs (thunk attempt) = true := by
      simpa using hfail 0 (Nat.succ_pos k)
    cases hc : thunk attempt with
    | success w => rw [hc] at h0; simp [isRetryable] at h0
    | otherError => rw [hc] at h0; simp [isRetryable] at h0
    | apiError st hint =>
      rw [hc] at h0
      have hst : st ∈ rs := by simpa [isRetryable] using h0
      have hr : ¬ r = 0 := by omega
      have hrec := ih r (attempt + 1) (cd * bf) (by omega)
        (fun i hi => by
          have := hfail (i + 1) (by omega)
          have harr : attempt + (i + 1) = attempt + 1 + i := by omega
          rwa [harr] at this)
        (by
          have harr : attempt + (k + 1) = attempt + 1 + k := by omega
          rwa [harr] at hsucc)
      simp only [retryGo, hc, if_pos hst, if_neg hr, hrec, delaySeq_succ, hintOf]
      simp only [RetryTrace.mk.injEq]
      exact ⟨trivial, trivial, by omega⟩

/-- Any run of the retry loop whose calls are retryable failures for the
whole remaining budget r re-raises the last failure: the final failure is
not slept on, so exactly r minus one sleeps happen, and exactly r calls. -/
theorem retryGo_exhausted {α : Type} (thunk : Nat → CallResult α) (rs : List Nat)
    (bf : ℚ) :
    ∀ (r attempt : Nat) (cd : ℚ),
      0 < r →
      (∀ i, i < r → isRetryable rs (thunk (attempt + i)) = true) →
      retryGo thunk rs bf r attempt cd =
        ⟨.exhausted (statusOf (thunk (attempt + (r - 1)))),
         delaySeq thunk bf cd attempt (r - 1), attempt + r⟩ := by
  intro r
  induction r with
  | zero => intro attempt cd h; omega
  | succ r ih =>
    intro attempt cd _ hfail
    have h0 : isRetryable rs (thunk attempt) = true := by
      simpa using hfail 0 (Nat.succ_pos r)
    cases hc : thunk attempt with
    | success w => rw [hc] at h0; simp [isRetryable] at h0
    | otherError => rw [hc] at h0; simp [isRetryable] at h0
    | apiError st hint =>
      rw [hc] at h0
      have hst : st ∈ rs := by simpa [isRetryable] using h0
      by_cases hr : r = 0
      · subst hr
        simp [retryGo, hc, if_pos hst, statusOf, delaySeq, hc]
      · have hrpos : 0 < r := Nat.pos_of_ne_zero hr
        have hrec := ih (attempt + 1) (cd * bf) hrpos
          (fun i hi => by
            have := hfail (i + 1) (by omega)
            have harr : attempt + (i + 1) = attempt + 1 + i := by omega
            rwa [harr] at this)
        simp only [retryGo, hc, if_pos hst, if_neg hr, hrec]
        have hs : r + 1 - 1 = (r - 1) + 1 := by omega
        rw [hs, delaySeq_succ]
        simp only [RetryTrace.mk.injEq, hc, hintOf]
        refine ⟨?_, trivial, by omega⟩
        have harr : attempt + 1 + (r - 1) = attempt + (r - 1 + 1) := by omega
        rw [harr]

/-- Any run of the retry loop whose first k calls are retryable failures,
with k strictly below the remaining budget, and whose next call fails in a
non-retryable way re-raises that failure at once: no sleep for it and no
further call. -/
theorem retryGo_fatal {α : Type} (thunk : Nat → CallResult α) (rs : List Nat)
    (bf : ℚ) :
    ∀ (k remaining attempt : Nat) (cd : ℚ),
      k < remaining →
      (∀ i, i < k → isRetryable rs (thunk (attempt + i)) = true) →
      isFatalCall rs (thunk (attempt + k)) = true →
      retryGo thunk rs bf remaining attempt cd =
        ⟨fatalResultOf (thunk (attempt + k)),
         delaySeq thunk bf cd attempt k, attempt + k + 1⟩ := by
  intro k
  induction k with
  | zero =>
    intro remaining attempt cd hk hfail hfat
    obtain ⟨r, rfl⟩ : ∃ r, remaining = r + 1 := ⟨remaining - 1, by omega⟩
    simp only [Nat.add_zero] at hfat
    cases hc : thunk attempt with
    | success w => rw [hc] at hfat; simp [isFatalCall] at hfat
    | otherError => simp [retryGo, hc, fatalResultOf, delaySeq]
    | apiError st hint =>
      rw [hc] at hfat
      have hst : st ∉ rs := by simpa [isFatalCall] using hfat
      simp [retryGo, hc, if_neg hst, fatalResultOf, delaySeq]
  | succ k ih =>
    intro remaining attempt cd hk hfail hfat
    obtain ⟨r, rfl⟩ : ∃ r, remaining = r + 1 := ⟨remaining - 1, by omega⟩
    have h0 : isRetryable rs (thunk attempt) = true := by
      simpa using hfail 0 (Nat.succ_pos k)
    cases hc : thunk attempt with
    | success w => rw [hc] at h0; simp [isRetryable] at h0
    | otherError => rw [hc] at h0; simp [isRetryable] at h0
    | apiError st hint =>
      rw [hc] at h0
      have hst : st ∈ rs := by simpa [isRetryable] using h0
      have hr : ¬ r = 0 := by omega
      have hrec := ih r (attempt + 1) (cd * bf) (by omega)
        (fun i hi => by
          have := hfail (i + 1) (by omega)
          have harr : attempt + (i + 1) = attempt + 1 + i := by omega
          rwa [harr] at this)
        (by
          have harr : attempt + (k + 1) = attempt + 1 + k := by omega
          rwa [harr] at hfat)
      simp only [retryGo, hc, if_pos hst, if_neg hr, hrec, delaySeq_succ, hintOf]
      simp only [RetryTrace.mk.injEq]
      refine ⟨?_, trivial, by omega⟩
      have harr : attempt + 1 + k = attempt + (k + 1) := by omega
      rw [harr]

/-- Claim C1 counterexample: with max_retries 3, initial delay 1 and
backoff factor three halves, a thunk that fails with retryable status 429
and no Retry-After header on its first three invocations and would
succeed on the fourth is never invoked a fourth time, although N equal to
max_retries satisfies N at most max_retries: the run ends in exhaustion
after three calls and two sleeps, and the second sleep is the Python
int() truncation of 3/2, namely 1, not the claimed 1 * (3/2) ^ 1. -/
theorem C1_counterexample :
    retry_on_api_error (fun n => if n ≤ 2 then .apiError 429 none else .success 7)
      3 1 (3/2) defaultRetryStatuses = ⟨.exhausted 429, [1, 1], 3⟩ ∧
    (retry_on_api_error (fun n => if n ≤ 2 then .apiError 429 none else .success 7)
      3 1 (3/2) defaultRetryStatuses).result ≠ .ok 7 := by
  have h : retry_on_api_error (fun n => if n ≤ 2 then .apiError 429 none else .success 7)
      3 1 (3/2) defaultRetryStatuses = ⟨.exhausted 429, [1, 1], 3⟩ := by
    norm_num [retry_on_api_error, retryGo, defaultRetryStatuses, delayOf, pyIntTrunc]
  refine ⟨h, ?_⟩
  rw [h]
  decide

/-- Claim C1 as amended: for every thunk that fails with a
retryable-status API error on its first N invocations, with N strictly
below max_retries, and succeeds on invocation N plus one,
retry_on_api_error returns the success value after exactly N sleeps,
where the i-th sleep (1-indexed) is the Retry-After hint when present and
parseable as an integer, is the raw backoff value
delay * backoff_factor ^ (i - 1) when a hint is present but unparseable,
and is the Python int() truncation of delay * backoff_factor ^ (i - 1)
when no hint is present. -/
theorem retry_success_after_n_retryable_failures {α : Type}
    (func : Nat → CallResult α) (max_retries : Int) (delay bf : ℚ)
    (N : Nat) (v : α)
    (hN : (N : Int) < max_retries)
    (hfail : ∀ i, i < N → isRetryable defaultRetryStatuses (func i) = true)
    (hsucc : func N = .success v) :
    retry_on_api_error func max_retries delay bf defaultRetryStatuses =
      ⟨.ok v,
       (List.range N).map (fun i => delayOf (delay * bf ^ i) (hintOf (func i))),
       N + 1⟩ := by
  have h := retryGo_ok func defaultRetryStatuses bf v N max_retries.toNat 0 delay
    (by omega) (fun i hi => by simpa using hfail i hi) (by simpa using hsucc)
  simpa [retry_on_api_error, delaySeq] using h

theorem retry_success_after_n_retryable_failures_witness :
    retry_on_api_error
      (fun n => if n = 0 then .apiError 429 (some (some 7))
        else if n = 1 then .apiError 500 (some none)
        else if n = 2 then .apiError 503 none
        else .success 42)
      5 2 2 defaultRetryStatuses = ⟨.ok 42, [7, 4, 8], 4⟩ := by
  have h := retry_success_after_n_retryable_failures
    (fun n => if n = 0 then .apiError 429 (some (some 7))
      else if n = 1 then .apiError 500 (some none)
      else if n = 2 then .apiError 503 none
      else .success 42)
    5 2 2 3 42 (by decide) (by decide) (by decide)
  rw [h]
  norm_num [delayOf, hintOf, pyIntTrunc, List.range_succ]

/-- Claim C2: with a positive max_retries, retry_on_api_error propagates
a failure exactly when either some invocation within the budget, preceded
only by retryable failures, fails non-retryably, or the first max_retries
invocations all fail retryably.  In the first case the failing error is
re-raised at once: the failing call is the last call and nothing is slept
after it.  In the second case the run ends in exhaustion carrying the
last observed status after exactly max_retries calls.  In every other
case the value of the first successful invocation is returned. -/
theorem retry_propagation_characterisation {α : Type}
    (func : Nat → CallResult α) (max_retries : Int) (delay bf : ℚ)
    (hpos : 0 < max_retries) :
    (isFailureR (retry_on_api_error func max_retries delay bf defaultRetryStatuses).result = true
      ↔ (∃ j : Nat, (j : Int) < max_retries ∧
            (∀ i, i < j → isRetryable defaultRetryStatuses (func i) = true) ∧
            isFatalCall defaultRetryStatuses (func j) = true)
        ∨ (∀ i : Nat, (i : Int) < max_retries →
            isRetryable defaultRetryStatuses (func i) = true))
    ∧ (∀ j : Nat, (j : Int) < max_retries →
        (∀ i, i < j → isRetryable defaultRetryStatuses (func i) = true) →
        isFatalCall defaultRetryStatuses (func j) = true →
        retry_on_api_error func max_retries delay bf defaultRetryStatuses =
          ⟨fatalResultOf (func j),
           (List.range j).map (fun i => delayOf (delay * bf ^ i) (hintOf (func i))),
           j + 1⟩)
    ∧ ((∀ i : Nat, (i : Int) < max_retries →
          isRetryable defaultRetryStatuses (func i) = true) →
        retry_on_api_error func max_retries delay bf defaultRetryStatuses =
          ⟨.exhausted (statusOf (func (max_retries.toNat - 1))),
           (List.range (max_retries.toNat - 1)).map
             (fun i => delayOf (delay * bf ^ i) (hintOf (func i))),
           max_retries.toNat⟩)
    ∧ (∀ (j : Nat) (v : α), (j : Int) < max_retries →
        (∀ i, i < j → isRetryable defaultRetryStatuses (func i) = true) →
        func j = .success v →
        (retry_on_api_error func max_retries delay bf defaultRetryStatuses).result =
          .ok v) := by
  have hfatal : ∀ j : Nat, (j : Int) < max_retries →
      (∀ i, i < j → isRetryable defaultRetryStatuses (func i) = true) →
      isFatalCall defaultRetryStatuses (func j) = true →
      retry_on_api_error func max_retries delay bf defaultRetryStatuses =
        ⟨fatalResultOf (func j),
         (List.range j).map (fun i => delayOf (delay * bf ^ i) (hintOf (func i))),
         j + 1⟩ := by
    intro j hj hmin hfat
    have h := retryGo_fatal func defaultRetryStatuses bf j max_retries.toNat 0 delay
      (by omega) (fun i hi => by simpa using hmin i hi) (by simpa using hfat)
    simpa [retry_on_api_error, delaySeq] using h
  have hexh : (∀ i : Nat, (i : Int) < max_retries →
      isRetryable defaultRetryStatuses (func i) = true) →
      retry_on_api_error func max_retries delay bf defaultRetryStatuses =
        ⟨.exhausted (statusOf (func (max_retries.toNat - 1))),
         (List.range (max_retries.toNat - 1)).map
           (fun i => delayOf (delay * bf ^ i) (hintOf (func i))),
         max_retries.toNat⟩ := by
    intro hall
    have h := retryGo_exhausted func defaultRetryStatuses bf max_retries.toNat 0 delay
      (by omega) (fun i hi => by simpa using hall i (by omega))
    simpa [retry_on_api_error, delaySeq] using h
  have hok : ∀ (j : Nat) (v : α), (j : Int) < max_retries →
      (∀ i, i < j → isRetryable defaultRetryStatuses (func i) = true) →
      func j = .success v →
      (retry_on_api_error func max_retries delay bf defaultRetryStatuses).result =
        .ok v := by
    intro j v hj hmin hs
    have h := retryGo_ok func defaultRetryStatuses bf v j max_retries.toNat 0 delay
      (by omega) (fun i hi => by simpa using hmin i hi) (by simpa using hs)
    simp [retry_on_api_error, h]
  refine ⟨?_, hfatal, hexh, hok⟩
  constructor
  · intro hfail_res
    by_contra hrhs
    obtain ⟨hna, hnb⟩ := not_or.mp hrhs
    push_neg at hnb
    obtain ⟨i0, hi0, hi0r⟩ := hnb
    have hex : ∃ j, ¬ isRetryable defaultRetryStatuses (func j) = true := ⟨i0, hi0r⟩
    classical
    have hj : ¬ isRetryable defaultRetryStatuses (func (Nat.find hex)) = true :=
      Nat.find_spec hex
    have hjle : Nat.find hex ≤ i0 := Nat.find_min' hex hi0r
    have hjlt : ((Nat.find hex : Nat) : Int) < max_retries := by omega
    have hmin : ∀ i, i < Nat.find hex →
        isRetryable defaultRetryStatuses (func i) = true := by
      intro i hi
      have := Nat.find_min hex hi
      simpa using this
    cases hc : func (Nat.find hex) with
    | success w =>
      have := hok (Nat.find hex) w hjlt hmin hc
      rw [this] at hfail_res
      simp [isFailureR] at hfail_res
    | apiError st hint =>
      by_cases hst : st ∈ defaultRetryStatuses
      · rw [hc] at hj
        simp [isRetryable, hst] at hj
      · refine hna ⟨Nat.find hex, hjlt, hmin, ?_⟩
        rw [hc]
        simp [isFatalCall, hst]
    | otherError =>
      refine hna ⟨Nat.find hex, hjlt, hmin, ?_⟩
      rw [hc]
      simp [isFatalCall]
  · intro h
    rcases h with ⟨j, hjlt, hmin, hfat⟩ | hall
    · rw [hfatal j hjlt hmin hfat]
      cases hc : func j with
      | success w => rw [hc] at hfat; simp [isFatalCall] at hfat
      | apiError st hint => simp [hc, fatalResultOf, isFailureR]
      | otherError => simp [hc, fatalResultOf, isFailureR]
    · rw [hexh hall]
      simp [isFailureR]

theorem retry_propagation_characterisation_witness :
    retry_on_api_error (fun n => if n = 0 then .apiError 404 none else .success 1)
      3 2 2 defaultRetryStatuses = ⟨.fatalApi 404, [], 1⟩ := by
  have h := (retry_propagation_characterisation
    (fun n => if n = 0 then .apiError 404 none else .success 1) 3 2 2 (by decide)).2.1
  have h0 := h 0 (by decide) (by intro i hi; exact absurd hi (by omega)) (by decide)
  simpa [fatalResultOf] using h0

/-- Claim C10: when max_retries is not positive the while loop of
retry_on_api_error is never entered, so the thunk is invoked zero times,
nothing is slept, and the Python value None is returned. -/
theorem retry_none_when_max_retries_nonpos {α : Type} (func : Nat → CallResult α)
    (max_retries : Int) (delay bf : ℚ) (retry_on_status : List Nat)
    (h : max_retries ≤ 0) :
    retry_on_api_error func max_retries delay bf retry_on_status =
      ⟨.noneResult, [], 0⟩ := by
  have h0 : max_retries.toNat = 0 := by omega
  simp [retry_on_api_error, h0, retryGo]

theorem retry_none_when_max_retries_nonpos_witness :
    retry_on_api_error (fun _ => (.success 5 : CallResult Nat)) 0 2 2
      defaultRetryStatuses = ⟨.noneResult, [], 0⟩ :=
  retry_none_when_max_retries_nonpos _ 0 2 2 defaultRetryStatuses (by decide)

/-- Value DEFAULT_LIMIT of src/config/settings.py. -/
def DEFAULT_LIMIT : Int := 50

/-- Value API_RETRY_ATTEMPTS of src/config/settings.py. -/
def API_RETRY_ATTEMPTS : Int := 3

/-- Value API_RETRY_DELAY of src/config/settings.py, in seconds. -/
def API_RETRY_DELAY : ℚ := 2

/-- Shape of one offset-mode page response as read by
BaseExporter.paginate: an optional items list (none when the response
carries no items key) and the next field (none when absent or null, a
string holding the next page url otherwise). -/
structure Page (ι : Type) where
  items : Option (List ι)
  next : Option String
  deriving DecidableEq

/-- Truthiness of response.get applied to the next field: a present,
non-empty string. -/
def Page.hasNext {ι : Type} (p : Page ι) : Bool :=
  match p.next with
  | some s => decide (s ≠ "")
  | none => false

/-- Items contributed by a response: the items value when the key is
present, nothing otherwise. -/
def itemsOf {ι : Type} (p : Page ι) : List ι :=
  match p.items with
  | some l => l
  | none => []

/-- Default-limit injection of paginate: when the keyword arguments carry
no limit key, limit is set to DEFAULT_LIMIT.  Keyword arguments are
modelled as an association list from parameter name to integer value. -/
def injectLimit (kwargs : List (String × Int)) : List (String × Int) :=
  if kwargs.any (fun kv => kv.1 = "limit") then kwargs
  else kwargs ++ [("limit", DEFAULT_LIMIT)]

/-- Outcome of one paginate run: the accumulated results, a re-raised
exception from a retried call, the None response produced by a
non-positive retry budget (which the items lookup of the source would
crash on), or exhaustion of the modelling fuel, standing for a traversal
that has not terminated within that many loop iterations. -/
inductive PagResult (ι : Type) where
  | ok (results : List ι)
  | raisedExhausted (status : Nat)
  | raisedFatalApi (status : Nat)
  | raisedFatalOther
  | noneResponse
  | outOfFuel
  deriving DecidableEq

/-- While loop of BaseExporter.paginate.  Every next-page fetch goes
through retry_on_api_error with the settings retry parameters; nextThunk
gives, for the response the closure captured and the invocation index
within one retry run, the outcome of calling spotify.next.  The source
loop has no iteration bound of its own, so the model carries fuel and
reports running out of it. -/
def paginateGo {ι : Type} (nextThunk : Page ι → Nat → CallResult (Page ι)) :
    Nat → Page ι → List ι → PagResult ι
  | 0, response, results => if response.hasNext then .outOfFuel else .ok results
  | fuel + 1, response, results =>
    if response.hasNext then
      match (retry_on_api_error (nextThunk response) API_RETRY_ATTEMPTS
          API_RETRY_DELAY 2 defaultRetryStatuses).result with
      | .ok r => paginateGo nextThunk fuel r (results ++ itemsOf r)
      | .exhausted st => .raisedExhausted st
      | .fatalApi st => .raisedFatalApi st
      | .fatalOther => .raisedFatalOther
      | .noneResult => .noneResponse
    else .ok results

/-- Embedding of BaseExporter.paginate from src/exporters/base_exporter.py:
inject the default limit when absent, issue the initial call through
retry_on_api_error, seed the accumulator with the items of the first
response when present, then follow non-empty next continuations, each
next-page fetch also through retry_on_api_error. -/
def paginate {ι : Type} (initialCall : List (String × Int) → Nat → CallResult (Page ι))
    (nextThunk : Page ι → Nat → CallResult (Page ι))
    (kwargs : List (String × Int)) (fuel : Nat) : PagResult ι :=
  match (retry_on_api_error (initialCall (injectLimit kwargs)) API_RETRY_ATTEMPTS
      API_RETRY_DELAY 2 defaultRetryStatuses).result with
  | .ok response => paginateGo nextThunk fuel response (itemsOf response)
  | .exhausted st => .raisedExhausted st
  | .fatalApi st => .raisedFatalApi st
  | .fatalOther => .raisedFatalOther
  | .noneResult => .noneResponse

/-- Page reached after k applications of the next operation to the
first page. -/
def pageSeq {ι : Type} (nextOf : Page ι → Page ι) (p0 : Page ι) : Nat → Page ι
  | 0 => p0
  | k + 1 => nextOf (pageSeq nextOf p0 k)

/-- Shape of the nested artists object of one followed-artists response:
the items list (empty when the key is missing) and the truthiness of the
nested next field. -/
structure CursorPage (α : Type) where
  items : List α
  next : Bool
  deriving DecidableEq

/-- Outcome of the cursor walk of get_followed_artists: the accumulated
artists, the exception propagated from a direct client call, or fuel
exhaustion for a walk that has not terminated. -/
inductive FollowResult (α : Type) where
  | ok (artists : List α)
  | raisedApi (status : Nat)
  | raisedOther
  | outOfFuel
  deriving DecidableEq

/-- While loop of get_followed_artists.  The client call is issued
directly, not through retry_on_api_error or rate_limit_decorator, so any
exception it raises propagates at once.  Returns the outcome together
with the after cursors passed to the successive calls, in order. -/
def followGo {α : Type} (call : Int → Option String → CallResult (CursorPage α))
    (idOf : α → String) :
    Nat → Option String → List α → FollowResult α × List (Option String)
  | 0, _, _ => (.outOfFuel, [])
  | fuel + 1, after, artists =>
    match call 50 after with
    | .success response =>
      let acc := artists ++ response.items
      if response.next = false then (.ok acc, [after])
      else
        match response.items.getLast? with
        | some lastItem =>
          let t := followGo call idOf fuel (some (idOf lastItem)) acc
          (t.1, after :: t.2)
        | none => (.ok acc, [after])
    | .apiError st _ => (.raisedApi st, [after])
    | .otherError => (.raisedOther, [after])

/-- Embedding of FollowingExporter.get_followed_artists from
src/exporters/following_exporter.py: cursor walk starting with the after
cursor unset and limit 50, the idOf function standing for the lookup of
the id key of an artist record. -/
def get_followed_artists {α : Type}
    (call : Int → Option String → CallResult (CursorPage α))
    (idOf : α → String) (fuel : Nat) : FollowResult α × List (Option String) :=
  followGo call idOf fuel none []

/-- Cursor passed to the k-th call (0-indexed) of a followed-artists walk
answered by the page script P when started from cursor a: a itself
initially, then the identifier of the last item of the previous page. -/
def chainFrom {α : Type} (idOf : α → String) (P : Nat → CursorPage α)
    (a : Option String) : Nat → Option String
  | 0 => a
  | k + 1 => ((P k).items.getLast?).map idOf

example :
    paginate (fun _ _ => .success (⟨some [1, 2], some "u"⟩ : Page Nat))
      (fun _ _ => .success (⟨some [3], none⟩ : Page Nat)) [] 1 = .ok [1, 2, 3] := by
  norm_num [paginate, paginateGo, injectLimit, retry_on_api_error, retryGo,
    API_RETRY_ATTEMPTS, API_RETRY_DELAY, itemsOf, Page.hasNext]
  decide

example :
    get_followed_artists
      (fun _ a => .success (if a = none then (⟨["x", "y"], true⟩ : CursorPage String)
        else if a = some "y" then ⟨["z"], false⟩ else ⟨[], false⟩))
      (fun s => s) 3 = (.ok ["x", "y", "z"], [none, some "y"]) := by
  decide

example :
    get_followed_artists (fun _ _ => .success (⟨[], true⟩ : CursorPage String))
      (fun s => s) 3 = (.ok [], [none]) := by
  decide

/-- One retried call that succeeds on its first invocation returns that
value, for any positive retry budget. -/
theorem retry_first_success {α : Type} (thunk : Nat → CallResult α) (v : α)
    (mr : Int) (d bf : ℚ) (rs : List Nat) (hmr : 0 < mr)
    (h : thunk 0 = .success v) :
    (retry_on_api_error thunk mr d bf rs).result = .ok v := by
  have hh := retryGo_ok thunk rs bf v 0 mr.toNat 0 d (by omega)
    (fun i hi => absurd hi (by omega)) (by simpa using h)
  simp [retry_on_api_error, hh]

theorem flatMap_range_succ {β : Type} (f : Nat → List β) (m : Nat) :
    (List.range (m + 1)).flatMap f = f 0 ++ (List.range m).flatMap (fun k => f (k + 1)) := by
  rw [List.range_succ_eq_map]
  simp [List.flatMap_cons, List.flatMap_map, Function.comp, Nat.succ_eq_add_one]

theorem map_range_succ {β : Type} (f : Nat → β) (m : Nat) :
    (List.range (m + 1)).map f = f 0 :: (List.range m).map (fun k => f (k + 1)) := by
  rw [List.range_succ_eq_map]
  simp [Function.comp, Nat.succ_eq_add_one]

theorem pageSeq_shift {ι : Type} (nextOf : Page ι → Page ι) (p0 : Page ι) :
    ∀ k, pageSeq nextOf (nextOf p0) k = pageSeq nextOf p0 (k + 1) := by
  intro k
  induction k with
  | zero => rfl
  | succ k ih => simp [pageSeq, ih]

/-- Loop of paginate against an infallible page source: when the pages
reached from p carry a truthy next exactly up to but excluding index m,
the loop appends the items of pages 1 to m to the accumulator and
stops. -/
theorem paginateGo_script {ι : Type} (nextOf : Page ι → Page ι) :
    ∀ (m fuel : Nat) (p : Page ι) (acc : List ι),
      (∀ k, k < m → (pageSeq nextOf p k).hasNext = true) →
      (pageSeq nextOf p m).hasNext = false →
      m ≤ fuel →
      paginateGo (fun q _ => .success (nextOf q)) fuel p acc =
        .ok (acc ++ (List.range m).flatMap (fun k => itemsOf (pageSeq nextOf p (k + 1)))) := by
  intro m
  induction m with
  | zero =>
    intro fuel p acc _ hlast _
    have h0 : p.hasNext = false := hlast
    cases fuel with
    | zero => simp [paginateGo, h0]
    | succ f => simp [paginateGo, h0]
  | succ m ih =>
    intro fuel p acc hmid hlast hfuel
    obtain ⟨f, rfl⟩ : ∃ f, fuel = f + 1 := ⟨fuel - 1, by omega⟩
    have h0 : p.hasNext = true := hmid 0 (Nat.succ_pos m)
    have hres : (retry_on_api_error ((fun q (_ : Nat) => CallResult.success (nextOf q)) p)
        API_RETRY_ATTEMPTS API_RETRY_DELAY 2 defaultRetryStatuses).result =
        .ok (nextOf p) :=
      retry_first_success _ _ _ _ _ _ (by norm_num [API_RETRY_ATTEMPTS]) rfl
    have ihh := ih f (nextOf p) (acc ++ itemsOf (nextOf p))
      (fun k hk => by rw [pageSeq_shift]; exact hmid (k + 1) (by omega))
      (by rw [pageSeq_shift]; exact hlast)
      (by omega)
    simp only [paginateGo, h0, if_true, hres, ihh]
    rw [flatMap_range_succ]
    simp only [pageSeq_shift, pageSeq, List.append_assoc]

/-- Claim C3: when the caller supplies no limit parameter the initial
paginate call carries the keyword arguments with limit 50 appended;
against an infallible offset-mode source whose pages carry a non-empty
next continuation exactly up to page m, the traversal returns the items
of pages 0 to m concatenated in api order, a first page with no items key
contributing an empty list rather than an error. -/
theorem paginate_offset_traversal {ι : Type}
    (initialCall : List (String × Int) → Nat → CallResult (Page ι))
    (nextOf : Page ι → Page ι) (kwargs : List (String × Int))
    (p0 : Page ι) (m fuel : Nat)
    (hnolimit : ∀ kv ∈ kwargs, kv.1 ≠ "limit")
    (hinit : initialCall (kwargs ++ [("limit", 50)]) 0 = .success p0)
    (hmid : ∀ k, k < m → (pageSeq nextOf p0 k).hasNext = true)
    (hlast : (pageSeq nextOf p0 m).hasNext = false)
    (hfuel : m ≤ fuel) :
    injectLimit kwargs = kwargs ++ [("limit", 50)] ∧
    paginate initialCall (fun q _ => .success (nextOf q)) kwargs fuel =
      .ok ((List.range (m + 1)).flatMap (fun k => itemsOf (pageSeq nextOf p0 k))) := by
  have hinj : injectLimit kwargs = kwargs ++ [("limit", 50)] := by
    have hany : kwargs.any (fun kv => kv.1 = "limit") = false := by
      simp only [List.any_eq_false, decide_eq_true_eq]
      intro kv hkv
      exact hnolimit kv hkv
    simp [injectLimit, hany, DEFAULT_LIMIT]
  refine ⟨hinj, ?_⟩
  have hres : (retry_on_api_error (initialCall (injectLimit kwargs)) API_RETRY_ATTEMPTS
      API_RETRY_DELAY 2 defaultRetryStatuses).result = .ok p0 := by
    apply retry_first_success
    · norm_num [API_RETRY_ATTEMPTS]
    · rw [hinj]; exact hinit
  simp only [paginate, hres]
  rw [paginateGo_script nextOf m fuel p0 (itemsOf p0) hmid hlast hfuel, flatMap_range_succ]
  simp [pageSeq]

theorem paginate_offset_traversal_witness :
    injectLimit [] = [("limit", (50 : Int))] ∧
    paginate (fun _ _ => .success (⟨some [1, 2], some "u"⟩ : Page Nat))
      (fun _ _ => .success (⟨some [3], none⟩ : Page Nat)) [] 1 = .ok [1, 2, 3] := by
  have h := paginate_offset_traversal
    (fun _ _ => .success (⟨some [1, 2], some "u"⟩ : Page Nat))
    (fun _ => (⟨some [3], none⟩ : Page Nat)) [] ⟨some [1, 2], some "u"⟩ 1 1
    (by simp) rfl (by decide) (by decide) (by decide)
  obtain ⟨h1, h2⟩ := h
  refine ⟨h1, ?_⟩
  rw [h2]
  decide

/-- Loop of paginate against an infallible source every one of whose
next pages signals a further continuation: no fuel bound completes the
traversal. -/
theorem paginateGo_endless {ι : Type} (nextOf : Page ι → Page ι)
    (hall : ∀ q : Page ι, (nextOf q).hasNext = true) :
    ∀ (fuel : Nat) (p : Page ι) (acc : List ι), p.hasNext = true →
      paginateGo (fun q _ => .success (nextOf q)) fuel p acc = .outOfFuel := by
  intro fuel
  induction fuel with
  | zero => intro p acc hp; simp [paginateGo, hp]
  | succ f ih =>
    intro p acc hp
    have hres : (retry_on_api_error ((fun q (_ : Nat) => CallResult.success (nextOf q)) p)
        API_RETRY_ATTEMPTS API_RETRY_DELAY 2 defaultRetryStatuses).result =
        .ok (nextOf p) :=
      retry_first_success _ _ _ _ _ _ (by norm_num [API_RETRY_ATTEMPTS]) rfl
    simp only [paginateGo, hp, if_true, hres]
    exact ih (nextOf p) (acc ++ itemsOf (nextOf p)) (hall p)

/-- Claim C8 contradicted by the code: offset-mode pagination has no
guard on empty pages with a truthy next continuation.  The source loop
stops only when a response has a falsy next, so against a source that
keeps answering with a truthy next and empty items the traversal never
terminates, and no fatal-protocol-error path exists.  In the
fuel-bounded rendering, every fuel amount is exhausted with no result. -/
theorem paginate_endless_next_never_terminates {ι : Type}
    (initialCall : List (String × Int) → Nat → CallResult (Page ι))
    (nextOf : Page ι → Page ι) (kwargs : List (String × Int)) (p0 : Page ι)
    (hinit : initialCall (injectLimit kwargs) 0 = .success p0)
    (hp0 : p0.hasNext = true)
    (hall : ∀ q : Page ι, (nextOf q).hasNext = true) :
    ∀ fuel : Nat,
      paginate initialCall (fun q _ => .success (nextOf q)) kwargs fuel = .outOfFuel := by
  intro fuel
  have hres := retry_first_success (initialCall (injectLimit kwargs)) p0 API_RETRY_ATTEMPTS
    API_RETRY_DELAY 2 defaultRetryStatuses (by norm_num [API_RETRY_ATTEMPTS]) hinit
  simp only [paginate, hres]
  exact paginateGo_endless nextOf hall fuel p0 (itemsOf p0) hp0

theorem paginate_endless_next_never_terminates_witness :
    paginate (fun _ _ => .success (⟨some [], some "u"⟩ : Page Nat))
      (fun _ _ => .success (⟨some [], some "u"⟩ : Page Nat)) [] 1000 = .outOfFuel := by
  have h := paginate_endless_next_never_terminates
    (fun _ _ => .success (⟨some [], some "u"⟩ : Page Nat))
    (fun _ => (⟨some [], some "u"⟩ : Page Nat)) [] ⟨some [], some "u"⟩
    rfl (by decide) (fun _ => rfl)
  exact h 1000

theorem chainFrom_shift {α : Type} (idOf : α → String) (P : Nat → CursorPage α)
    (a : Option String) :
    ∀ k, chainFrom idOf (fun j => P (j + 1)) (chainFrom idOf P a 1) k =
      chainFrom idOf P a (k + 1) := by
  intro k
  cases k with
  | zero => rfl
  | succ k => rfl

/-- Cursor walk against an infallible source answered by the page script
P from cursor a: pages before the last are non-empty and signal more, the
last page signals no more or is empty; the walk returns all items in
order together with the cursor chain it passed. -/
theorem followGo_script {α : Type} (pageOf : Option String → CursorPage α)
    (idOf : α → String) :
    ∀ (m fuel : Nat) (P : Nat → CursorPage α) (a : Option String) (acc : List α),
      (∀ k, k ≤ m → pageOf (chainFrom idOf P a k) = P k) →
      (∀ k, k < m → (P k).items ≠ [] ∧ (P k).next = true) →
      ((P m).next = false ∨ (P m).items = []) →
      m < fuel →
      followGo (fun _ b => .success (pageOf b)) idOf fuel a acc =
        (.ok (acc ++ (List.range (m + 1)).flatMap (fun k => (P k).items)),
         (List.range (m + 1)).map (chainFrom idOf P a)) := by
  intro m
  induction m with
  | zero =>
    intro fuel P a acc hP _ hlast hfuel
    obtain ⟨f, rfl⟩ : ∃ f, fuel = f + 1 := ⟨fuel - 1, by omega⟩
    have h0 : pageOf a = P 0 := hP 0 (le_refl 0)
    rcases hlast with hl | hl
    · simp [followGo, h0, hl, chainFrom, List.range_succ]
    · by_cases hn : (P 0).next = false
      · simp [followGo, h0, hn, chainFrom, List.range_succ]
      · simp [followGo, h0, hn, hl, chainFrom, List.range_succ]
  | succ m ih =>
    intro fuel P a acc hP hmid hlast hfuel
    obtain ⟨f, rfl⟩ : ∃ f, fuel = f + 1 := ⟨fuel - 1, by omega⟩
    have h0 : pageOf a = P 0 := hP 0 (by omega)
    obtain ⟨hne, hnext⟩ := hmid 0 (by omega)
    obtain ⟨lastItem, hgl⟩ : ∃ x, (P 0).items.getLast? = some x := by
      cases hgl : (P 0).items.getLast? with
      | none => exact absurd (List.getLast?_eq_none_iff.mp hgl) hne
      | some x => exact ⟨x, rfl⟩
    have hcur : some (idOf lastItem) = chainFrom idOf P a 1 := by
      simp [chainFrom, hgl]
    have hrec := ih f (fun j => P (j + 1)) (chainFrom idOf P a 1) (acc ++ (P 0).items)
      (fun k hk => by rw [chainFrom_shift]; exact hP (k + 1) (by omega))
      (fun k hk => hmid (k + 1) (by omega))
      hlast
      (by omega)
    have hn : ¬ (P 0).next = false := by simp [hnext]
    have hmapeq : List.map (chainFrom idOf (fun j => P (j + 1)) (chainFrom idOf P a 1))
        (List.range (m + 1)) =
        List.map (fun k => chainFrom idOf P a (k + 1)) (List.range (m + 1)) :=
      List.map_congr_left (fun k _ => chainFrom_shift idOf P a k)
    simp only [followGo, h0, if_neg hn, hgl, hcur, hrec]
    rw [flatMap_range_succ ((fun k => (P k).items)) (m + 1),
      map_range_succ (chainFrom idOf P a) (m + 1), ← hmapeq]
    simp only [List.append_assoc]
    exact rfl

/-- Claim C4: for an infallible cursor source answered by a page script
whose pages before the last are non-empty and signal more pages and
whose last page signals no more or is empty, get_followed_artists
returns the concatenation of all pages of items, makes exactly one call
per page, and passes as the after cursor of each call past the first the
identifier of the last item returned by the previous call; in particular
an empty first page yields the empty result after exactly one call. -/
theorem followed_artists_cursor_traversal {α : Type}
    (pageOf : Option String → CursorPage α) (idOf : α → String)
    (P : Nat → CursorPage α) (m fuel : Nat)
    (hP : ∀ k, k ≤ m → pageOf (chainFrom idOf P none k) = P k)
    (hmid : ∀ k, k < m → (P k).items ≠ [] ∧ (P k).next = true)
    (hlast : (P m).next = false ∨ (P m).items = [])
    (hfuel : m < fuel) :
    get_followed_artists (fun _ b => .success (pageOf b)) idOf fuel =
      (.ok ((List.range (m + 1)).flatMap (fun k => (P k).items)),
       (List.range (m + 1)).map (chainFrom idOf P none)) := by
  have h := followGo_script pageOf idOf m fuel P none [] hP hmid hlast hfuel
  simpa [get_followed_artists] using h

theorem followed_artists_cursor_traversal_witness :
    get_followed_artists
      (fun _ a => .success (if a = none then (⟨["x", "y"], true⟩ : CursorPage String)
        else if a = some "y" then ⟨["z"], false⟩ else ⟨[], false⟩))
      (fun s => s) 2 = (.ok ["x", "y", "z"], [none, some "y"]) := by
  have h := followed_artists_cursor_traversal
    (fun a => if a = none then (⟨["x", "y"], true⟩ : CursorPage String)
      else if a = some "y" then ⟨["z"], false⟩ else ⟨[], false⟩)
    (fun s => s)
    (fun k => if k = 0 then ⟨["x", "y"], true⟩ else ⟨["z"], false⟩) 1 2
    (by decide) (by decide) (by decide) (by decide)
  have h2 : ((.ok ((List.range 2).flatMap
      (fun k => ((fun k => if k = 0 then (⟨["x", "y"], true⟩ : CursorPage String)
        else ⟨["z"], false⟩) k).items)),
      (List.range 2).map (chainFrom (fun s => s)
        (fun k => if k = 0 then (⟨["x", "y"], true⟩ : CursorPage String)
          else ⟨["z"], false⟩) none)) :
      FollowResult String × List (Option String)) =
      (.ok ["x", "y", "z"], [none, some "y"]) := by decide
  exact h.trans h2

/-- Claim C7 contradicted by the code: the followed-artists cursor walk
issues its client calls directly, not through retry_on_api_error (the
rate_limit_decorator import of the file is never applied).  A first call
failing with retryable status 429 therefore propagates at once after one
call, while the same failure pattern submitted to retry_on_api_error
with the retry settings used by paginate recovers and returns the
page. -/
theorem followed_artists_call_not_retried :
    get_followed_artists
      (fun _ _ => (.apiError 429 none : CallResult (CursorPage Nat)))
      (fun _ => "") 5 = (.raisedApi 429, [none]) ∧
    (retry_on_api_error
      (fun n => if n = 0 then .apiError 429 none
        else .success (⟨[7], false⟩ : CursorPage Nat))
      API_RETRY_ATTEMPTS API_RETRY_DELAY 2 defaultRetryStatuses).result =
      .ok ⟨[7], false⟩ := by
  constructor
  · decide
  · norm_num [retry_on_api_error, retryGo, API_RETRY_ATTEMPTS, API_RETRY_DELAY,
      defaultRetryStatuses]

/-- Json values as handled by merge_json_data in src/utils/file_utils.py:
Python dicts become association lists in insertion order, numbers are
modelled as integers (identifier values in the data are strings or
integers), and value equality is structural. -/
inductive Json where
  | null
  | bool (b : Bool)
  | num (n : Int)
  | str (s : String)
  | arr (xs : List Json)
  | obj (fields : List (String × Json))

mutual

/-- Structural equality of Json values, modelling Python equality on the
values the merge compares. -/
def Json.beq : Json → Json → Bool
  | .null, .null => true
  | .bool a, .bool b => a == b
  | .num a, .num b => a == b
  | .str a, .str b => a == b
  | .arr xs, .arr ys => Json.beqList xs ys
  | .obj xs, .obj ys => Json.beqObj xs ys
  | _, _ => false

/-- Elementwise equality of Json lists. -/
def Json.beqList : List Json → List Json → Bool
  | [], [] => true
  | x :: xs, y :: ys => Json.beq x y && Json.beqList xs ys
  | _, _ => false

/-- Entrywise equality of Json objects. -/
def Json.beqObj : List (String × Json) → List (String × Json) → Bool
  | [], [] => true
  | (k1, v1) :: xs, (k2, v2) :: ys => k1 == k2 && Json.beq v1 v2 && Json.beqObj xs ys
  | _, _ => false

end

mutual

theorem Json.beq_iff : ∀ (a b : Json), Json.beq a b = true ↔ a = b
  | .null, b => by cases b <;> simp [Json.beq]
  | .bool x, b => by cases b <;> simp [Json.beq]
  | .num x, b => by cases b <;> simp [Json.beq]
  | .str x, b => by cases b <;> simp [Json.beq]
  | .arr xs, b => by
    cases b with
    | arr ys => simp only [Json.beq, Json.beqList_iff xs ys, Json.arr.injEq]
    | null => simp [Json.beq]
    | bool _ => simp [Json.beq]
    | num _ => simp [Json.beq]
    | str _ => simp [Json.beq]
    | obj _ => simp [Json.beq]
  | .obj xs, b => by
    cases b with
    | obj ys => simp only [Json.beq, Json.beqObj_iff xs ys, Json.obj.injEq]
    | null => simp [Json.beq]
    | bool _ => simp [Json.beq]
    | num _ => simp [Json.beq]
    | str _ => simp [Json.beq]
    | arr _ => simp [Json.beq]

theorem Json.beqList_iff : ∀ (xs ys : List Json), Json.beqList xs ys = true ↔ xs = ys
  | [], [] => by simp [Json.beqList]
  | [], _ :: _ => by simp [Json.beqList]
  | _ :: _, [] => by simp [Json.beqList]
  | x :: xs, y :: ys => by
    simp only [Json.beqList, Bool.and_eq_true, Json.beq_iff x y,
      Json.beqList_iff xs ys, List.cons.injEq]

theorem Json.beqObj_iff :
    ∀ (xs ys : List (String × Json)), Json.beqObj xs ys = true ↔ xs = ys
  | [], [] => by simp [Json.beqObj]
  | [], _ :: _ => by simp [Json.beqObj]
  | _ :: _, [] => by simp [Json.beqObj]
  | (k1, v1) :: xs, (k2, v2) :: ys => by
    simp only [Json.beqObj, Bool.and_eq_true, Json.beq_iff v1 v2,
      Json.beqObj_iff xs ys, List.cons.injEq, Prod.mk.injEq, beq_iff_eq]

end

instance : DecidableEq Json := fun a b => decidable_of_iff _ (Json.beq_iff a b)

example : (Json.arr [.num 1] ≠ Json.arr [.num 2]) := by decide

/-- Is a Json value a Python dict. -/
def Json.isObj : Json → Bool
  | .obj _ => true
  | _ => false

/-- Is a Json value a Python list. -/
def Json.isArr : Json → Bool
  | .arr _ => true
  | _ => false

/-- Membership of a key in a Python dict modelled as an association
list. -/
def jHasKey (o : List (String × Json)) (k : String) : Bool :=
  o.any (fun kv => kv.1 = k)

/-- First value stored under a key of a dict. -/
def jGet (o : List (String × Json)) (k : String) : Option Json :=
  (o.find? (fun kv => kv.1 = k)).map (fun kv => kv.2)

/-- Python dict get with a default. -/
def jGetD (o : List (String × Json)) (k : String) (d : Json) : Json :=
  (jGet o k).getD d

/-- Python dict item assignment: overwrite in place when the key exists,
append at the end otherwise. -/
def jSet (o : List (String × Json)) (k : String) (v : Json) : List (String × Json) :=
  if jHasKey o k then o.map (fun kv => if kv.1 = k then (k, v) else kv)
  else o ++ [(k, v)]

/-- Membership of a value in the set of collected identifier values,
by Python equality. -/
def jMem (v : Json) (l : List Json) : Bool :=
  l.any (fun x => Json.beq x v)

/-- Python exceptions the merge can raise on ill-shaped records:
TypeError (mapping splat of a non-mapping, membership test on a
non-container, subscript of a non-dict), AttributeError (get called on a
value that is not a dict), KeyError (subscript of a missing key). -/
inductive PyErr where
  | typeError
  | attributeError
  | keyError
  deriving DecidableEq

/-- Python substring test: the empty needle is in every string,
otherwise splitting on the needle yields more than one piece. -/
def pyStrIn (needle s : String) : Bool :=
  if needle = "" then true else decide ((s.splitOn needle).length > 1)

/-- Python membership test of a string key in an arbitrary item value:
key lookup for a dict, element test for a list, substring test for a
string, TypeError for the scalar values. -/
def pyKeyIn (key : String) : Json → Except PyErr Bool
  | .obj fs => .ok (jHasKey fs key)
  | .arr xs => .ok (xs.any (fun x => Json.beq x (.str key)))
  | .str s => .ok (pyStrIn key s)
  | _ => .error .typeError

/-- Python item.get(key), defaulting to None: AttributeError when the
item is not a dict. -/
def pyDictGet (item : Json) (key : String) : Except PyErr Json :=
  match item with
  | .obj fs => .ok (jGetD fs key .null)
  | _ => .error .attributeError

/-- Python item[key] for a string key: dict lookup raising KeyError when
missing, TypeError when the item is not a dict. -/
def pySubscript (item : Json) (key : String) : Except PyErr Json :=
  match item with
  | .obj fs =>
    match jGet fs key with
    | some v => .ok v
    | none => .error .keyError
  | _ => .error .typeError

/-- Identifier fields searched by _find_id_field, in priority order. -/
def idFields : List String := ["id", "uri", "href"]

/-- Embedding of _find_id_field from src/utils/file_utils.py: scan the
items in order and, for the first item that is a dict carrying one of
id, uri, href (tried in that order within the item), return that field;
none when no item qualifies, in particular for an empty list. -/
def find_id_field (data_list : List Json) : Option String :=
  data_list.findSome? (fun item =>
    match item with
    | .obj fs => idFields.find? (fun f => jHasKey fs f)
    | _ => none)

/-- Embedding of the set comprehension building existing_ids in
merge_json_data: the values under the identifier field of the existing
items that carry it, collected left to right.  Later membership tests
are by equality, so a list models the Python set. -/
def buildIds (id_field : String) : List Json → Except PyErr (List Json)
  | [] => .ok []
  | item :: rest => do
    let b ← pyKeyIn id_field item
    if b then do
      let v ← pyDictGet item id_field
      let vs ← buildIds id_field rest
      .ok (v :: vs)
    else
      buildIds id_field rest

/-- Embedding of the append loop of merge_json_data: a new item is
appended exactly when the identifier field is not in it or its
identifier value is not among the existing identifiers; the membership
test short-circuits, so the subscript only runs when the key is
present. -/
def filterNew (id_field : String) (existing_ids : List Json) :
    List Json → Except PyErr (List Json)
  | [] => .ok []
  | item :: rest => do
    let b ← pyKeyIn id_field item
    if b = false then do
      let others ← filterNew id_field existing_ids rest
      .ok (item :: others)
    else do
      let v ← pySubscript item id_field
      if jMem v existing_ids then
        filterNew id_field existing_ids rest
      else do
        let others ← filterNew id_field existing_ids rest
        .ok (item :: others)

/-- Metadata block of merge_json_data.  When both records carry
metadata, the merged metadata is a copy of the existing one with
update_date set to the export_date of the new metadata, defaulting to
datetime.now().isoformat() (the now argument), and previous_export_date
set to the export_date of the existing metadata, defaulting to None;
splatting a non-dict raises TypeError and get on a non-dict raises
AttributeError.  Otherwise it is the metadata of the new record,
defaulting to the empty dict. -/
def mergeMetadata (now : String) (existing_data new_data : List (String × Json)) :
    Except PyErr Json :=
  if jHasKey existing_data "metadata" && jHasKey new_data "metadata" then do
    let base ← (match jGetD existing_data "metadata" .null with
      | .obj fs => .ok fs
      | _ => .error PyErr.typeError)
    let nmo ← (match jGetD new_data "metadata" .null with
      | .obj fs => .ok fs
      | _ => .error PyErr.attributeError)
    let upd := jGetD nmo "export_date" (.str now)
    let withUpd := jSet base "update_date" upd
    let prev := jGetD base "export_date" .null
    .ok (.obj (jSet withUpd "previous_export_date" prev))
  else
    .ok (jGetD new_data "metadata" (.obj []))

/-- Data block of merge_json_data.  When both records carry list data,
an identifier field found in the existing items drives deduplication:
the existing list is kept and only new items with a missing or unseen
identifier are appended; with no identifier field the lists are
concatenated.  When either data value is not a list the new data wins.
When either record lacks the data key the result is the data of the new
record, defaulting to the empty dict. -/
def mergeData (existing_data new_data : List (String × Json)) : Except PyErr Json :=
  if jHasKey existing_data "data" && jHasKey new_data "data" then
    match jGetD existing_data "data" .null, jGetD new_data "data" .null with
    | .arr exList, .arr newList =>
      match find_id_field exList with
      | some id_field => do
        let existing_ids ← buildIds id_field exList
        let extra ← filterNew id_field existing_ids newList
        .ok (.arr (exList ++ extra))
      | none => .ok (.arr (exList ++ newList))
    | _, nd => .ok nd
  else
    .ok (jGetD new_data "data" (.obj []))

/-- Embedding of merge_json_data from src/utils/file_utils.py.  The now
argument stands for datetime.now().isoformat(), the one ambient value
the function reads; the metadata block runs first, as in the source, so
its exception preempts the data block. -/
def merge_json_data (now : String) (existing_data new_data : List (String × Json)) :
    Except PyErr (List (String × Json)) := do
  let merged_metadata ← mergeMetadata now existing_data new_data
  let merged_data ← mergeData existing_data new_data
  .ok [("metadata", merged_metadata), ("data", merged_data)]

instance {ε α : Type} [DecidableEq ε] [DecidableEq α] : DecidableEq (Except ε α) :=
  fun a b =>
  match a, b with
  | .ok x, .ok y =>
    if h : x = y then .isTrue (congrArg Except.ok h)
    else .isFalse (fun hc => h (Except.ok.inj hc))
  | .error x, .error y =>
    if h : x = y then .isTrue (congrArg Except.error h)
    else .isFalse (fun hc => h (Except.error.inj hc))
  | .ok _, .error _ => .isFalse (fun hc => Except.noConfusion hc)
  | .error _, .ok _ => .isFalse (fun hc => Except.noConfusion hc)

example :
    merge_json_data "T"
      [("data", .arr [.obj [("id", .num 1), ("v", .str "a")]])]
      [("data", .arr [.obj [("id", .num 1), ("v", .str "b")],
                      .obj [("id", .num 2), ("v", .str "c")]])] =
      .ok [("metadata", .obj []),
           ("data", .arr [.obj [("id", .num 1), ("v", .str "a")],
                          .obj [("id", .num 2), ("v", .str "c")]])] := by
  decide

example :
    merge_json_data "T" [("data", .str "x")] [("data", .arr [.num 1])] =
      .ok [("metadata", .obj []), ("data", .arr [.num 1])] := by
  decide

example :
    merge_json_data "T"
      [("data", .arr [.obj [("v", .str "a")]])]
      [("data", .arr [.obj [("v", .str "b")]])] =
      .ok [("metadata", .obj []),
           ("data", .arr [.obj [("v", .str "a")], .obj [("v", .str "b")]])] := by
  decide

example :
    merge_json_data "T"
      [("metadata", .obj [("export_date", .str "E")]), ("data", .arr [])]
      [("metadata", .obj [("export_date", .str "N")]), ("data", .arr [.num 3])] =
      .ok [("metadata", .obj [("export_date", .str "E"),
             ("update_date", .str "N"), ("previous_export_date", .str "E")]),
           ("data", .arr [.num 3])] := by
  decide

/-- Does an item carry a key as a dict. -/
def jItemHasKey (it : Json) (k : String) : Bool :=
  match it with
  | .obj fs => jHasKey fs k
  | _ => false

/-- Value of a dict item under a key, None when missing or when the item
is not a dict. -/
def jItemVal (it : Json) (k : String) : Json :=
  match it with
  | .obj fs => jGetD fs k .null
  | _ => .null

/-- Identifier values present in the existing items: the values under f
of exactly those items that carry f. -/
def existingIdVals (f : String) (l : List Json) : List Json :=
  (l.filter (fun it => jItemHasKey it f)).map (fun it => jItemVal it f)

theorem jGet_isSome_of_hasKey (o : List (String × Json)) (k : String)
    (h : jHasKey o k = true) : ∃ v, jGet o k = some v := by
  unfold jHasKey at h
  unfold jGet
  obtain ⟨kv, hmem, hk⟩ := List.any_eq_true.mp h
  cases hfind : o.find? (fun kv => kv.1 = k) with
  | none =>
    have hnone := List.find?_eq_none.mp hfind kv hmem
    exact absurd hk hnone
  | some kv2 => exact ⟨kv2.2, by simp [hfind]⟩

theorem jGetD_of_hasKey (o : List (String × Json)) (k : String) (d1 d2 : Json)
    (h : jHasKey o k = true) : jGetD o k d1 = jGetD o k d2 := by
  obtain ⟨v, hv⟩ := jGet_isSome_of_hasKey o k h
  simp [jGetD, hv]

theorem jGetD_eq_of_get (o : List (String × Json)) (k : String) (d v : Json)
    (h : jGet o k = some v) : jGetD o k d = v := by
  simp [jGetD, h]

theorem exceptBindOk {ε α β : Type} (x : α) (k : α → Except ε β) :
    (Except.ok x : Except ε α) >>= k = k x := rfl

/-- The set comprehension never raises on all-dict items and collects
exactly the identifier values of the items carrying the field. -/
theorem buildIds_ok (f : String) :
    ∀ l : List Json, (∀ it ∈ l, it.isObj = true) →
      buildIds f l = .ok (existingIdVals f l)
  | [], _ => by simp [buildIds, existingIdVals]
  | item :: rest, hobj => by
    have hitem : item.isObj = true := hobj item (List.mem_cons_self item rest)
    have hrest := buildIds_ok f rest (fun it hit => hobj it (List.mem_cons_of_mem item hit))
    cases item with
    | obj fs =>
      by_cases hk : jHasKey fs f = true
      · simp [buildIds, pyKeyIn, hk, pyDictGet, hrest, existingIdVals,
          jItemHasKey, jItemVal, exceptBindOk]
      · simp only [Bool.not_eq_true] at hk
        simp [buildIds, pyKeyIn, hk, hrest, existingIdVals, jItemHasKey, jItemVal,
          exceptBindOk]
    | null => simp [Json.isObj] at hitem
    | bool _ => simp [Json.isObj] at hitem
    | num _ => simp [Json.isObj] at hitem
    | str _ => simp [Json.isObj] at hitem
    | arr _ => simp [Json.isObj] at hitem

/-- The append loop never raises on all-dict items and keeps exactly the
items with a missing or unseen identifier. -/
theorem filterNew_ok (f : String) (ids : List Json) :
    ∀ l : List Json, (∀ it ∈ l, it.isObj = true) →
      filterNew f ids l = .ok (l.filter (fun it =>
        !(jItemHasKey it f) || !(jMem (jItemVal it f) ids)))
  | [], _ => by simp [filterNew]
  | item :: rest, hobj => by
    have hitem : item.isObj = true := hobj item (List.mem_cons_self item rest)
    have hrest := filterNew_ok f ids rest
      (fun it hit => hobj it (List.mem_cons_of_mem item hit))
    cases item with
    | obj fs =>
      by_cases hk : jHasKey fs f = true
      · obtain ⟨v, hv⟩ := jGet_isSome_of_hasKey fs f hk
        have hval : jItemVal (.obj fs) f = v := by
          simp [jItemVal, jGetD_eq_of_get fs f .null v hv]
        by_cases hm : jMem v ids = true
        · simp [filterNew, pyKeyIn, hk, pySubscript, hv, hm, hrest, jItemHasKey,
            hval, exceptBindOk]
        · simp only [Bool.not_eq_true] at hm
          simp [filterNew, pyKeyIn, hk, pySubscript, hv, hm, hrest, jItemHasKey,
            hval, exceptBindOk]
      · simp only [Bool.not_eq_true] at hk
        simp [filterNew, pyKeyIn, hk, hrest, jItemHasKey, exceptBindOk]
    | null => simp [Json.isObj] at hitem
    | bool _ => simp [Json.isObj] at hitem
    | num _ => simp [Json.isObj] at hitem
    | str _ => simp [Json.isObj] at hitem
    | arr _ => simp [Json.isObj] at hitem

theorem merge_json_data_eq (now : String) (e n : List (String × Json)) (mm md : Json)
    (h1 : mergeMetadata now e n = .ok mm) (h2 : mergeData e n = .ok md) :
    merge_json_data now e n = .ok [("metadata", mm), ("data", md)] := by
  unfold merge_json_data
  rw [h1, h2]
  rfl

/-- Data block outcome when an identifier field is found. -/
theorem mergeData_dedup (e n : List (String × Json))
    (exList newList : List Json) (f : String)
    (hke : jHasKey e "data" = true) (hkn : jHasKey n "data" = true)
    (hed : jGetD e "data" .null = .arr exList)
    (hnd : jGetD n "data" .null = .arr newList)
    (hf : find_id_field exList = some f)
    (hexobj : ∀ it ∈ exList, it.isObj = true)
    (hnewobj : ∀ it ∈ newList, it.isObj = true) :
    mergeData e n = .ok (.arr (exList ++ newList.filter (fun it =>
      !(jItemHasKey it f) || !(jMem (jItemVal it f) (existingIdVals f exList))))) := by
  unfold mergeData
  rw [hke, hkn, hed, hnd]
  simp only [Bool.and_self, if_true, hf, buildIds_ok f exList hexobj,
    filterNew_ok f (existingIdVals f exList) newList hnewobj, exceptBindOk]

/-- Claim C5: when both records carry list-valued data and _find_id_field
finds an identifier field f among the existing items, the merged data is
the existing list unchanged and in order, followed by exactly those new
items, in their original order, whose identifier field is missing or
whose identifier value does not occur among the identifier values of the
existing items.  Stated for data lists whose items are all dicts, the
shape the data model gives items, and for records whose metadata block
completes. -/
theorem merge_dedup_by_id_field (now : String)
    (existing_data new_data : List (String × Json)) (mm : Json)
    (exList newList : List Json) (f : String)
    (hmm : mergeMetadata now existing_data new_data = .ok mm)
    (hke : jHasKey existing_data "data" = true)
    (hkn : jHasKey new_data "data" = true)
    (hed : jGetD existing_data "data" .null = .arr exList)
    (hnd : jGetD new_data "data" .null = .arr newList)
    (hf : find_id_field exList = some f)
    (hexobj : ∀ it ∈ exList, it.isObj = true)
    (hnewobj : ∀ it ∈ newList, it.isObj = true) :
    merge_json_data now existing_data new_data =
      .ok [("metadata", mm),
           ("data", .arr (exList ++ newList.filter (fun it =>
             !(jItemHasKey it f) || !(jMem (jItemVal it f) (existingIdVals f exList)))))] :=
  merge_json_data_eq now existing_data new_data mm _ hmm
    (mergeData_dedup existing_data new_data exList newList f hke hkn hed hnd hf
      hexobj hnewobj)

theorem merge_dedup_by_id_field_witness :
    merge_json_data "T"
      [("data", .arr [.obj [("id", .num 1), ("v", .str "a")]])]
      [("data", .arr [.obj [("id", .num 1), ("v", .str "b")],
                      .obj [("id", .num 2), ("v", .str "c")]])] =
      .ok [("metadata", .obj []),
           ("data", .arr [.obj [("id", .num 1), ("v", .str "a")],
                          .obj [("id", .num 2), ("v", .str "c")]])] := by
  have h := merge_dedup_by_id_field "T"
    [("data", .arr [.obj [("id", .num 1), ("v", .str "a")]])]
    [("data", .arr [.obj [("id", .num 1), ("v", .str "b")],
                    .obj [("id", .num 2), ("v", .str "c")]])]
    (.obj [])
    [.obj [("id", .num 1), ("v", .str "a")]]
    [.obj [("id", .num 1), ("v", .str "b")], .obj [("id", .num 2), ("v", .str "c")]]
    "id" (by decide) (by decide) (by decide) (by decide) (by decide) (by decide)
    (by decide) (by decide)
  rw [h]
  decide

/-- Claim C6: with both records carrying the data key, when both data
values are lists but no identifier field occurs in any existing item the
merged data is the plain concatenation with no deduplication, and when
at least one data value is not a list the merged data is exactly the
data of the new record. -/
theorem merge_concat_or_new_data (now : String)
    (existing_data new_data : List (String × Json)) (mm : Json)
    (hmm : mergeMetadata now existing_data new_data = .ok mm)
    (hke : jHasKey existing_data "data" = true)
    (hkn : jHasKey new_data "data" = true) :
    (∀ exList newList,
      jGetD existing_data "data" .null = .arr exList →
      jGetD new_data "data" .null = .arr newList →
      find_id_field exList = none →
      merge_json_data now existing_data new_data =
        .ok [("metadata", mm), ("data", .arr (exList ++ newList))])
    ∧ ((jGetD existing_data "data" .null).isArr = false ∨
        (jGetD new_data "data" .null).isArr = false →
      merge_json_data now existing_data new_data =
        .ok [("metadata", mm), ("data", jGetD new_data "data" .null)]) := by
  constructor
  · intro exList newList hed hnd hfnone
    apply merge_json_data_eq now existing_data new_data mm _ hmm
    unfold mergeData
    rw [hke, hkn, hed, hnd]
    simp only [Bool.and_self, if_true, hfnone]
  · intro hnotarr
    apply merge_json_data_eq now existing_data new_data mm _ hmm
    unfold mergeData
    rw [hke, hkn]
    simp only [Bool.and_self, if_true]
    cases hed : jGetD existing_data "data" .null with
    | arr exList =>
      cases hnd : jGetD new_data "data" .null with
      | arr newList =>
        rw [hed, hnd] at hnotarr
        simp [Json.isArr] at hnotarr
      | null => rfl
      | bool _ => rfl
      | num _ => rfl
      | str _ => rfl
      | obj _ => rfl
    | null => rfl
    | bool _ => rfl
    | num _ => rfl
    | str _ => rfl
    | obj _ => rfl

theorem merge_concat_or_new_data_witness :
    merge_json_data "T" [("data", .str "x")] [("data", .arr [.num 1])] =
      .ok [("metadata", .obj []), ("data", .arr [.num 1])] := by
  have h := (merge_concat_or_new_data "T" [("data", .str "x")]
    [("data", .arr [.num 1])] (.obj []) (by decide) (by decide) (by decide)).2
    (by decide)
  rw [h]
  decide

/-- Claim C9 counterexample: merge_json_data reads the ambient clock.
With both records carrying metadata and the new metadata lacking
export_date, update_date is set to datetime.now().isoformat(), so two
runs on the same pair of records at different times return different
merged records. -/
theorem C9_counterexample :
    merge_json_data "2024-01-01T00:00:00" [("metadata", .obj [])] [("metadata", .obj [])] ≠
    merge_json_data "2024-01-02T00:00:00" [("metadata", .obj [])] [("metadata", .obj [])] := by
  decide

/-- Claim C9 as amended: merge_json_data is a pure function of its two
records apart from reading the clock for the update_date default, and
its result does not depend on the clock provided that, whenever both
records carry metadata, the metadata of the new record carries an
export_date entry; under that proviso two runs on equal inputs return
equal merged records at any two times. -/
theorem merge_deterministic_when_export_date_present
    (now1 now2 : String) (e n : List (String × Json))
    (h : jHasKey e "metadata" = true → jHasKey n "metadata" = true →
      jItemHasKey (jGetD n "metadata" .null) "export_date" = true) :
    merge_json_data now1 e n = merge_json_data now2 e n := by
  have hmeta : mergeMetadata now1 e n = mergeMetadata now2 e n := by
    unfold mergeMetadata
    by_cases hcond : (jHasKey e "metadata" && jHasKey n "metadata") = true
    · rw [if_pos hcond, if_pos hcond]
      obtain ⟨he, hn⟩ : jHasKey e "metadata" = true ∧ jHasKey n "metadata" = true := by
        simpa [Bool.and_eq_true] using hcond
      cases hem : jGetD e "metadata" .null with
      | obj fs =>
        cases hnm : jGetD n "metadata" .null with
        | obj gs =>
          have hkey : jHasKey gs "export_date" = true := by
            have hh := h he hn
            rw [hnm] at hh
            simpa [jItemHasKey] using hh
          have hupd := jGetD_of_hasKey gs "export_date" (.str now1) (.str now2) hkey
          show Except.ok (Json.obj (jSet (jSet fs "update_date"
              (jGetD gs "export_date" (.str now1))) "previous_export_date"
              (jGetD fs "export_date" .null))) =
            Except.ok (Json.obj (jSet (jSet fs "update_date"
              (jGetD gs "export_date" (.str now2))) "previous_export_date"
              (jGetD fs "export_date" .null)))
          rw [hupd]
        | null => rfl
        | bool _ => rfl
        | num _ => rfl
        | str _ => rfl
        | arr _ => rfl
      | null => rfl
      | bool _ => rfl
      | num _ => rfl
      | str _ => rfl
      | arr _ => rfl
    · rw [if_neg hcond, if_neg hcond]
  unfold merge_json_data
  rw [hmeta]

theorem merge_deterministic_when_export_date_present_witness :
    merge_json_data "2024-01-01T00:00:00"
      [("metadata", .obj [("export_date", .str "E")]), ("data", .arr [.num 1])]
      [("metadata", .obj [("export_date", .str "N")]), ("data", .arr [.num 2])] =
    merge_json_data "2024-01-02T00:00:00"
      [("metadata", .obj [("export_date", .str "E")]), ("data", .arr [.num 1])]
      [("metadata", .obj [("export_date", .str "N")]), ("data", .arr [.num 2])] :=
  merge_deterministic_when_export_date_present _ _ _ _ (by decide)

end SpotifyExport
